import Mathlib

/-!
Verification of the claryfy-backend bounded-concurrency aggregation core.

The definitions below are shallow embeddings of the JavaScript/TypeScript
source (src/http-server.js, src/client.ts, src/services/gemini.js,
src/services/conversation.js).  Asynchronous code is modelled for workers
that settle immediately (the promise returned by `processor(item)` is
already settled when `.then` is attached), which makes the event-loop
schedule deterministic; the model follows the microtask semantics of that
schedule step by step.
-/

namespace Claryfy

/-- `FetchOutcome`: the two shapes produced by `Promise.allSettled`
(`status: 'fulfilled', value` / `status: 'rejected', reason`). -/
inductive Outcome (α : Type) where
  | fulfilled (value : α)
  | rejected (reason : String)
deriving DecidableEq, Repr

namespace Outcome

def isFulfilled {α : Type} : Outcome α → Bool
  | .fulfilled _ => true
  | .rejected _ => false

def isRejected {α : Type} : Outcome α → Bool
  | .fulfilled _ => false
  | .rejected _ => true

def reason? {α : Type} : Outcome α → Option String
  | .fulfilled _ => none
  | .rejected r => some r

end Outcome

/-- `PERFORMANCE_CONFIG.MAX_CONCURRENT_REQUESTS` (http-server.js line 82),
the default `maxConcurrency` of `processWithConcurrency`. -/
def MAX_CONCURRENT_REQUESTS : Nat := 12

/-- `PERFORMANCE_CONFIG.COURSE_BATCH_SIZE` (http-server.js line 83),
the default `batchSize` of `processBatchWithRetry`. -/
def COURSE_BATCH_SIZE : Nat := 10

/-- `PERFORMANCE_CONFIG.MAX_COURSES` (http-server.js line 86). -/
def MAX_COURSES : Nat := 15

/-!
### ConcurrencyGate: `processWithConcurrency` (http-server.js lines 112-132)

```js
async function processWithConcurrency(items, processor, maxConcurrency = 12) {
    const results = [];
    const executing = [];
    for (const item of items) {
        const promise = processor(item).then(result => {
            const index = executing.indexOf(promise);
            if (index !== -1) executing.splice(index, 1);
            return result;
        });
        results.push(promise);
        executing.push(promise);
        if (executing.length >= maxConcurrency) {
            await Promise.race(executing);
        }
    }
    return Promise.allSettled(results);
}
```

For immediately-settling workers the microtask schedule is deterministic:

* Between two `await Promise.race` suspension points the loop runs
  synchronously, so every promise pushed since the last race is still
  unsettled when the next race starts ("the current wave"), while promises
  left over from earlier waves are already settled.
* Only *fulfilled* promises are removed from `executing` (the `.then`
  callback has no rejection handler), so a rejected promise stays in
  `executing` forever once its wave has settled.
* At `await Promise.race(executing)`:
  - reactions for already-settled (leftover, necessarily rejected)
    promises are enqueued at subscription time, so if any leftover is
    present the race rejects with the first leftover's reason and the
    `await` throws out of `processWithConcurrency`;
  - otherwise the wave's promises settle in push order, so the race
    adopts the outcome of the first promise of the wave: if that worker
    rejected the `await` throws, if it fulfilled the loop resumes (and
    the wave's rejected promises become leftovers).
* If the loop finishes without a throwing race, `Promise.allSettled`
  resolves with one outcome per item, in input order.

`gateLoop` walks the item list carrying the reasons of the leftover
rejected promises and the outcomes of the current wave.
-/

def gateLoop {α β : Type} (w : α → Outcome β) (limit : Nat) :
    List α → List String → List (Outcome β) → Except String Unit
  | [], _, _ => .ok ()
  | item :: rest, leftovers, pending =>
      let pending' := pending ++ [w item]
      if leftovers.length + pending'.length ≥ limit then
        match leftovers with
        | r :: _ => .error r
        | [] =>
          match pending' with
          | .rejected r :: _ => .error r
          | _ =>
            gateLoop w limit rest
              (pending'.filterMap Outcome.reason?) []
      else
        gateLoop w limit rest leftovers pending'

/-- Deterministic model of `processWithConcurrency` for immediately-settling
workers: either the run throws (a worker rejection escaping through
`await Promise.race`) or it returns `Promise.allSettled(results)`, one
outcome per item in input order. -/
def processWithConcurrency {α β : Type} (items : List α) (w : α → Outcome β)
    (limit : Nat := MAX_CONCURRENT_REQUESTS) : Except String (List (Outcome β)) :=
  match gateLoop w limit items [] [] with
  | .error r => .error r
  | .ok () => .ok (items.map w)

/-!
### BatchOrchestrator: `processBatchWithRetry` (http-server.js lines 135-168)

```js
async function processBatchWithRetry(items, processor, batchSize = 10) {
    const batches = [];
    for (let i = 0; i < items.length; i += batchSize) {
        batches.push(items.slice(i, i + batchSize));
    }
    const allResults = [];
    for (const batch of batches) {
        try {
            const batchResults = await processWithConcurrency(batch, processor);
            allResults.push(...batchResults);
            // pacing delay between batches (timing only)
            performanceMetrics.totalRequests += batch.length;
            performanceMetrics.successfulRequests += fulfilled count;
            performanceMetrics.failedRequests += rejected count;
        } catch (error) {
            performanceMetrics.failedRequests += batch.length;
        }
    }
    return allResults;
}
```
-/

/-- The mutable `performanceMetrics` counters (http-server.js lines 90-96);
`averageResponseTime` and `lastResetTime` are not touched by the claims. -/
structure Metrics where
  totalRequests : Nat
  successfulRequests : Nat
  failedRequests : Nat
deriving DecidableEq, Repr

/-- The metrics value installed at startup and re-installed by the
`/logout` handler (http-server.js lines 646-652). -/
def resetMetrics : Metrics := ⟨0, 0, 0⟩

/-- Structural worker for `chunk`; the fuel starts at the list length and
dominates it throughout, so the `0, _ :: _` case is unreachable. -/
def chunkGo {α : Type} (batchSize : Nat) : Nat → List α → List (List α)
  | _, [] => []
  | 0, _ :: _ => []
  | fuel + 1, x :: rest =>
    match batchSize with
    | 0 => []
    | n + 1 => (x :: rest).take (n + 1) :: chunkGo (n + 1) fuel (rest.drop n)

/-- The batching loop `for (let i = 0; i < items.length; i += batchSize)`
with `items.slice(i, i + batchSize)`.  A `batchSize` of `0` would make the
JavaScript loop run forever (modelled as no batches); the callers only
ever use the positive default `10`, and theorems about chunking assume
`0 < batchSize`. -/
def chunk {α : Type} (batchSize : Nat) (xs : List α) : List (List α) :=
  chunkGo batchSize xs.length xs

/-- One batch step of `processBatchWithRetry`: on success append the
outcomes and bump all three counters, on a batch-level exception bump only
`failedRequests` (the `catch` branch) and append nothing. -/
def batchStep {α β : Type} (w : α → Outcome β)
    (acc : List (Outcome β) × Metrics) (batch : List α) :
    List (Outcome β) × Metrics :=
  match processWithConcurrency batch w MAX_CONCURRENT_REQUESTS with
  | .ok rs =>
      (acc.1 ++ rs,
        { totalRequests := acc.2.totalRequests + batch.length
          successfulRequests :=
            acc.2.successfulRequests + (rs.filter Outcome.isFulfilled).length
          failedRequests :=
            acc.2.failedRequests + (rs.filter Outcome.isRejected).length })
  | .error _ =>
      (acc.1, { acc.2 with failedRequests := acc.2.failedRequests + batch.length })

/-- Model of `processBatchWithRetry`: returns the collected outcome list
and the updated `performanceMetrics`.  The function itself never throws:
every batch-level exception is absorbed by the `catch` branch. -/
def processBatchWithRetry {α β : Type} (items : List α) (w : α → Outcome β)
    (batchSize : Nat := COURSE_BATCH_SIZE) (m : Metrics) :
    List (Outcome β) × Metrics :=
  (chunk batchSize items).foldl (batchStep w) ([], m)

/-!
### RetryingPaginatedClient: `CanvasClient.setupInterceptors` (src/client.ts)

Retry logic (client.ts lines 101-127):

```js
async (error: AxiosError) => {
    const config = error.config as any;
    if (this.shouldRetry(error) && config && config.__retryCount < this.maxRetries) {
        config.__retryCount = config.__retryCount || 0;
        config.__retryCount++;
        const delay = this.retryDelay * Math.pow(2, config.__retryCount - 1);
        await this.sleep(delay);
        return this.client.request(config);
    }
    if (error.response) {
        const { status, data } = error.response;
        throw new CanvasAPIError(..., status, data);
    }
    throw error;
}
```

`config.__retryCount` starts out `undefined` and is only initialised
*inside* the guarded block; the guard itself evaluates
`undefined < this.maxRetries`, which in JavaScript is `false`
(`undefined` converts to `NaN`).  `jsLtUndef` models that comparison.
-/

/-- One scripted upstream reply to one physical request attempt. -/
inductive UpstreamResp where
  | ok (data : Nat)
  | httpStatus (code : Nat)
  | network
deriving DecidableEq, Repr

/-- The failure half of `UpstreamResp` (an `AxiosError`): either a
response with a status code or no response at all. -/
inductive UpstreamFail where
  | status (code : Nat)
  | network
deriving DecidableEq, Repr

/-- `CanvasClient.shouldRetry` (client.ts lines 131-136): retry on
network-level failures, 429, and any status of at least 500. -/
def shouldRetry : UpstreamFail → Bool
  | .network => true
  | .status code => code == 429 || decide (code ≥ 500)

/-- JavaScript `a < b` where `a` may be `undefined`: `undefined < b` is
`false` for every `b` (`undefined` converts to `NaN`). -/
def jsLtUndef : Option Nat → Nat → Bool
  | none, _ => false
  | some a, b => decide (a < b)

/-- Final result of one logical request. -/
inductive ReqResult where
  | success (data : Nat)
  | canvasError (status : Nat)
  | netError
deriving DecidableEq, Repr

/-- Trace of one logical request: final result, number of physical
attempts made, and the backoff delays that were slept between attempts. -/
structure ReqTrace where
  result : ReqResult
  attempts : Nat
  delays : List Nat
deriving DecidableEq, Repr

/-- Splits an upstream reply into success data or an `AxiosError`. -/
def classifyResp : UpstreamResp → Nat ⊕ UpstreamFail
  | .ok d => .inl d
  | .httpStatus code => .inr (.status code)
  | .network => .inr .network

/-- The error surfaced when the interceptor does not retry: a
`CanvasAPIError` carrying the status when a response exists, the raw
error otherwise (client.ts lines 117-126). -/
def surfaceError (fail : UpstreamFail) (attemptIdx : Nat) (delays : List Nat) :
    ReqTrace :=
  match fail with
  | .status code => ⟨.canvasError code, attemptIdx + 1, delays⟩
  | .network => ⟨.netError, attemptIdx + 1, delays⟩

/-- The interceptor-driven request loop of `CanvasClient`.  `upstream i`
is the reply to the `i`-th physical attempt (0-based), `retryCount` is
the `config.__retryCount` field (starting as `undefined = none`), and the
fuel bounds recursion (a retry is only taken when
`retryCount < maxRetries`, so `maxRetries + 1` fuel is enough). -/
def requestLoop (upstream : Nat → UpstreamResp) (maxRetries retryDelay : Nat) :
    Nat → Nat → Option Nat → List Nat → ReqTrace
  | fuel, attemptIdx, retryCount, delays =>
    match classifyResp (upstream attemptIdx) with
    | .inl d => ⟨.success d, attemptIdx + 1, delays⟩
    | .inr fail =>
      match fuel with
      | 0 => surfaceError fail attemptIdx delays
      | fuel + 1 =>
        if shouldRetry fail && jsLtUndef retryCount maxRetries then
          let rc := retryCount.getD 0 + 1
          let delay := retryDelay * 2 ^ (rc - 1)
          requestLoop upstream maxRetries retryDelay fuel (attemptIdx + 1) (some rc)
            (delays ++ [delay])
        else
          surfaceError fail attemptIdx delays

/-- One logical request through the `CanvasClient` interceptors, with the
default `maxRetries = 3` and `retryDelay = 1000` unless overridden. -/
def performRequest (upstream : Nat → UpstreamResp)
    (maxRetries : Nat := 3) (retryDelay : Nat := 1000) : ReqTrace :=
  requestLoop upstream maxRetries retryDelay (maxRetries + 1) 0 none []

/-- The mock upstream of the claim: HTTP 429 to the first two attempts,
HTTP 200 with data afterwards. -/
def upstream429twice : Nat → UpstreamResp := fun i =>
  if i < 2 then .httpStatus 429 else .ok 7

/-!
### Pagination: the response interceptor (client.ts lines 79-99) and
`getNextPageUrl` (client.ts lines 170-177)

```js
async (response) => {
    const { headers, data, config } = response;
    const linkHeader = headers.link;
    if (Array.isArray(data) && linkHeader && !(config as any)._isPaginationRequest) {
        let allData = [...data];
        let nextUrl = this.getNextPageUrl(linkHeader);
        while (nextUrl) {
            const nextResponse = await this.client.get(nextUrl, { _isPaginationRequest: true });
            allData = [...allData, ...nextResponse.data];
            nextUrl = this.getNextPageUrl(nextResponse.headers.link);
        }
        response.data = allData;
    }
    return response;
}

private getNextPageUrl(linkHeader: string): string | null {
    const links = linkHeader.split(',');
    const nextLink = links.find(link => link.includes('rel="next"'));
    if (!nextLink) return null;
    const match = nextLink.match(/<(.+?)>/);
    return match ? match[1] : null;
}
```
-/

/-- JavaScript `String.prototype.split` on a single-character separator,
over the character list: every separator occurrence cuts, empty pieces
are kept. -/
def splitOnChar (sep : Char) : List Char → List (List Char)
  | [] => [[]]
  | c :: rest =>
    let r := splitOnChar sep rest
    if c = sep then [] :: r
    else (c :: r.headD []) :: r.tail

/-- Occurrence of `sub` as a contiguous sublist (JavaScript
`String.prototype.includes` over character lists). -/
def subOccurs (sub : List Char) : List Char → Bool
  | [] => sub.isEmpty
  | c :: rest => sub.isPrefixOf (c :: rest) || subOccurs sub rest

/-- JavaScript `s.includes(sub)`. -/
def jsIncludes (s sub : String) : Bool :=
  subOccurs sub.data s.data

/-- The lazy body of the regular expression `/<(.+?)>/` once an opening
angle bracket has been found: `.+?` consumes as few characters as
possible, so the capture runs up to the first closing `>` that leaves the
body non-empty. -/
def lazyAngleBody (acc : List Char) : List Char → Option (List Char)
  | [] => none
  | c :: rest =>
    if c = '>' ∧ acc ≠ [] then some acc.reverse
    else lazyAngleBody (c :: acc) rest

/-- `nextLink.match(/<(.+?)>/)`: find the first `<`, then the lazy body. -/
def matchAngle : List Char → Option (List Char)
  | [] => none
  | c :: rest =>
    if c = '<' then lazyAngleBody [] rest
    else matchAngle rest

/-- `CanvasClient.getNextPageUrl` (client.ts lines 170-177). -/
def getNextPageUrl (linkHeader : String) : Option String :=
  let links := (splitOnChar ',' linkHeader.data).map String.mk
  match links.find? (fun link => jsIncludes link "rel=\"next\"") with
  | none => none
  | some nextLink =>
    match matchAngle nextLink.data with
    | none => none
    | some cs => some (String.mk cs)

/-- One upstream page: the response body (a JSON array) and the `Link`
response header when present. -/
structure PageResp (α : Type) where
  data : List α
  link : Option String
deriving Repr

/-- The `while (nextUrl)` pagination loop.  Each iteration issues one
follow-up GET marked `_isPaginationRequest` (counted in the second
component).  Inside the loop the code reads `nextResponse.headers.link`
without a presence check: a continuation page with no `Link` header makes
`getNextPageUrl` throw a `TypeError` (`undefined.split`), modelled as
`.error`.  The fuel bounds the chain length (the JavaScript loop would
run forever on a cyclic chain). -/
def paginateLoop {α : Type} (upstream : String → PageResp α) :
    Nat → Option String → List α → Nat → Except String (List α × Nat)
  | _, none, acc, reqs => .ok (acc, reqs)
  | 0, some _, _, _ => .error "fuel exhausted"
  | fuel + 1, some url, acc, reqs =>
    let resp := upstream url
    match resp.link with
    | none => .error "TypeError: linkHeader is undefined"
    | some h =>
      paginateLoop upstream fuel (getNextPageUrl h) (acc ++ resp.data) (reqs + 1)

/-- The response interceptor applied to one response: for an initial
request whose body is an array and whose `Link` header is truthy (present
and non-empty), follow the pagination chain; otherwise (in particular for
every request marked `_isPaginationRequest`) return the data untouched.
Returns the final `response.data` and the number of follow-up
continuation requests issued. -/
def handleResponse {α : Type} (upstream : String → PageResp α) (fuel : Nat)
    (resp : PageResp α) (isPaginationRequest : Bool) :
    Except String (List α × Nat) :=
  if isPaginationRequest then .ok (resp.data, 0)
  else
    match resp.link with
    | none => .ok (resp.data, 0)
    | some h =>
      if h = "" then .ok (resp.data, 0)
      else paginateLoop upstream fuel (getNextPageUrl h) resp.data 0

/-- An upstream whose continuation URLs form a linked list: `Follows
upstream next pages n` states that starting from the parsed next-link
`next`, following the chain visits pages with bodies `pages` using `n`
continuation GETs, ending at a page whose `Link` header carries no
`rel="next"` entry. -/
inductive Follows {α : Type} (upstream : String → PageResp α) :
    Option String → List (List α) → Nat → Prop
  | nil : Follows upstream none [] 0
  | cons (url : String) (h : String) (ds : List (List α)) (n : Nat)
      (hlink : (upstream url).link = some h)
      (hrest : Follows upstream (getNextPageUrl h) ds n) :
      Follows upstream (some url) ((upstream url).data :: ds) (n + 1)

/-!
### IngestionPipeline: `POST /api/recordings/process`
(http-server.js lines 1188-1354)

The handler's observable actions are modelled as an effect trace:
upload the blob to storage, transcribe, update the recording row,
vectorize, unlink local temporary files, delete the storage blob, and
finally respond.  The branch structure follows the source: the inner
`try` covers steps 1-7; its `catch` marks the recording `failed` with
`Processing failed: <message>` as the summary, unlinks the temporary
files, and rethrows to the outer handler which answers 500.
-/

/-- One observable action of the recording-processing handler. -/
inductive RecEffect where
  | storageUpload
  | unlink (path : String)
  | updateRec (status : String) (summary : String)
  | vectorize
  | storageDelete
deriving DecidableEq, Repr

/-- The error message thrown by the transcription length check
(http-server.js lines 1237-1239). -/
def transcriptionTooShortMsg : String := "Transcription too short or empty"

/-- Model of the `/api/recordings/process` handler body, given the path
of the multer temp file, the extension appended for Whisper, the
transcription returned by the external call, and the generated summary.
Returns the effect trace in order and the HTTP status of the response.
The JavaScript check `!transcription || transcription.length < 10`
collapses to `transcription.length < 10` for string transcriptions,
since the empty string is the only falsy string.  The guard
`tempFileWithExt !== audioFile.path` before the second unlink is kept. -/
def processRecording (audioPath ext transcription summary : String) :
    List RecEffect × Nat :=
  let tempFileWithExt := audioPath ++ ext
  let cleanup :=
    RecEffect.unlink audioPath ::
      (if tempFileWithExt = audioPath then [] else [RecEffect.unlink tempFileWithExt])
  if transcription.length < 10 then
    -- `throw new Error('Transcription too short or empty')`, caught by the
    -- inner catch: mark failed, clean up local temp files, rethrow; the
    -- outer catch answers 500.  The storage blob is not deleted here.
    ([RecEffect.storageUpload,
      RecEffect.updateRec "failed" ("Processing failed: " ++ transcriptionTooShortMsg)]
      ++ cleanup, 500)
  else
    ([RecEffect.storageUpload,
      RecEffect.updateRec "completed" summary,
      RecEffect.vectorize]
      ++ cleanup ++ [RecEffect.storageDelete], 200)

/-!
### QueryAnalyzer fallback: `GeminiQueryService.fallbackQueryProcessing`
(src/services/gemini.js lines 184-217)
-/

/-- A row of the `userCourses` argument. -/
structure Course where
  course_code : String
  name : String
deriving DecidableEq, Repr

/-- The object shape returned by `fallbackQueryProcessing` (and expected
from Gemini). -/
structure SearchIntent where
  searchType : String
  courseFilter : Option String
  timeFilter : Option String
  priority : Option String
  keywords : List String
  specificItems : List String
  intent : String
deriving DecidableEq, Repr

/-- Occurrence of `ps` followed by a digit, i.e. the `ps\d+` alternative
of the assignment regex, on an already-lowercased character list. -/
def hasPsNum : List Char → Bool
  | p :: s :: c :: rest =>
    (p = 'p' && s = 's' && c.isDigit) || hasPsNum (s :: c :: rest)
  | _ => false

/-- Case-insensitive regex test for a list of plain-text alternatives:
`/a|b|.../i.test(q)` for ASCII literals is containment of some
alternative in the lowercased query. -/
def testAnyCI (q : String) (alts : List String) : Bool :=
  alts.any (fun a => jsIncludes q.toLower a)

/-- `/assignment|homework|hw|ps\d+|problem set|project|quiz|exam|test/i` -/
def isAssignmentQuery (q : String) : Bool :=
  testAnyCI q ["assignment", "homework", "hw"] || hasPsNum q.toLower.data
    || testAnyCI q ["problem set", "project", "quiz", "exam", "test"]

/-- `/announcement|news|update|notice/i` -/
def isAnnouncementQuery (q : String) : Bool :=
  testAnyCI q ["announcement", "news", "update", "notice"]

/-- `/file|document|pdf|syllabus|material/i` -/
def isFileQuery (q : String) : Bool :=
  testAnyCI q ["file", "document", "pdf", "syllabus", "material"]

/-- `/course|class|taking|enrolled/i` -/
def isCourseQuery (q : String) : Bool :=
  testAnyCI q ["course", "class", "taking", "enrolled"]

/-- `GeminiQueryService.fallbackQueryProcessing`.  A total function: every
JavaScript operation it performs (`toLowerCase`, regex tests, `includes`,
`split`, `filter`) is total on strings, so it never throws. -/
def fallbackQueryProcessing (userQuery : String) (userCourses : List Course) :
    SearchIntent :=
  let isAssignment := isAssignmentQuery userQuery
  let isAnnouncement := isAnnouncementQuery userQuery
  let isFile := isFileQuery userQuery
  let isCourse := isCourseQuery userQuery
  let timeFilter : Option String :=
    if testAnyCI userQuery ["this week", "week"] then some "this_week"
    else if testAnyCI userQuery ["next week"] then some "next_week"
    else if testAnyCI userQuery ["due", "deadline"] then some "this_week"
    else none
  let courseFilter : Option String :=
    (userCourses.find? (fun course =>
      jsIncludes userQuery course.course_code || jsIncludes userQuery course.name)).map
      (fun course => course.course_code)
  { searchType :=
      if isAssignment then "assignments"
      else if isAnnouncement then "announcements"
      else if isFile then "files"
      else if isCourse then "courses"
      else "general"
    courseFilter := courseFilter
    timeFilter := timeFilter
    priority :=
      if testAnyCI userQuery ["due", "deadline", "urgent"] then some "due_soon" else none
    keywords := (userQuery.splitOn " ").filter (fun word => word.length > 2)
    specificItems := []
    intent :=
      if isAssignment then "find_assignments"
      else if isCourse then "get_course_info"
      else "general_question" }

/-!
### AggregationPipeline: `GET /api/dashboard` (http-server.js lines 377-443)
with `getAllAssignmentsOptimized` (446-519), `getAllAnnouncementsOptimized`
(521-601) and `getAllFilesOptimized` (603-638)

Each category worker is kept abstract (it wraps a Canvas API call and
annotates the rows with the course id/name).  The category functions run
the cards through `processBatchWithRetry`, keep the fulfilled outcomes,
flatten, and sort.  Their `catch` fallbacks (retry with the first five
cards) are unreachable in the model: the modelled try-block is a total
function.  The source launches the three category fetches through
`Promise.all`; each metrics increment is atomic on the single-threaded
event loop, so the final counters equal those of the sequential
composition modelled here.
-/

/-- The sentinel used for assignments without a due date:
`new Date(a.due_at || '9999-12-31')`, as a large timestamp. -/
def farFutureDate : Nat := 253402214400000

/-- An assignment row: the `due_at` sort key and an opaque payload. -/
structure AItem where
  due_at : Option Nat
  payload : String
deriving DecidableEq, Repr

/-- An announcement row: `posted_at` falling back to `created_at`. -/
structure AnnItem where
  posted_at : Option Nat
  created_at : Nat
  payload : String
deriving DecidableEq, Repr

/-- A file row: `updated_at` falling back to `created_at`. -/
structure FItem where
  updated_at : Option Nat
  created_at : Nat
  payload : String
deriving DecidableEq, Repr

/-- `results.filter(r => r.status === 'fulfilled').flatMap(r => r.value)` -/
def fulfilledValues {β : Type} (results : List (Outcome (List β))) : List β :=
  ((results.filter Outcome.isFulfilled).map (fun r =>
    match r with
    | .fulfilled v => v
    | .rejected _ => [])).flatten

/-- `getAllAssignmentsOptimized`: early return on an empty card list,
else batch-fetch, keep fulfilled outcomes, sort ascending by due date
with the far-future sentinel for missing dates. -/
def getAllAssignmentsOptimized {γ : Type} (cards : List γ)
    (w : γ → Outcome (List AItem)) (m : Metrics) : List AItem × Metrics :=
  if cards.length = 0 then ([], m)
  else
    let (results, m') := processBatchWithRetry cards w COURSE_BATCH_SIZE m
    ((fulfilledValues results).mergeSort
      (fun a b => a.due_at.getD farFutureDate ≤ b.due_at.getD farFutureDate), m')

/-- `getAllAnnouncementsOptimized`: early return on an empty card list,
else batch-fetch, keep fulfilled outcomes, sort descending by
`posted_at || created_at`. -/
def getAllAnnouncementsOptimized {γ : Type} (cards : List γ)
    (w : γ → Outcome (List AnnItem)) (m : Metrics) : List AnnItem × Metrics :=
  if cards.length = 0 then ([], m)
  else
    let (results, m') := processBatchWithRetry cards w COURSE_BATCH_SIZE m
    ((fulfilledValues results).mergeSort
      (fun a b => b.posted_at.getD b.created_at ≤ a.posted_at.getD a.created_at), m')

/-- `getAllFilesOptimized`: restrict to the first
`Math.min(8, dashboardCards.length)` cards (no empty-list early return in
the source), batch-fetch, keep fulfilled outcomes, sort descending by
`updated_at || created_at`. -/
def getAllFilesOptimized {γ : Type} (cards : List γ)
    (w : γ → Outcome (List FItem)) (m : Metrics) : List FItem × Metrics :=
  let limitedCourses := cards.take (min 8 cards.length)
  let (results, m') := processBatchWithRetry limitedCourses w COURSE_BATCH_SIZE m
  ((fulfilledValues results).mergeSort
    (fun a b => b.updated_at.getD b.created_at ≤ a.updated_at.getD a.created_at), m')

/-- The JSON payload of `GET /api/dashboard` (http-server.js lines
425-437), with the nested `performance` summary inlined. -/
structure DashboardPayload (γ : Type) where
  courses : List γ
  assignments : List AItem
  announcements : List AnnItem
  files : List FItem
  coursesProcessed : Nat
  assignmentsCount : Nat
  announcementsCount : Nat
  filesCount : Nat

/-- The data path of the `/api/dashboard` handler after authentication:
truncate the fetched dashboard cards to `MAX_COURSES`, run the three
category fetches, truncate each category for the payload, and report
`coursesProcessed` as the truncated card count. -/
def dashboardHandler {γ : Type} (dashboardCards : List γ)
    (wA : γ → Outcome (List AItem)) (wAnn : γ → Outcome (List AnnItem))
    (wF : γ → Outcome (List FItem)) (m : Metrics) :
    DashboardPayload γ × Metrics :=
  let limitedCards := dashboardCards.take MAX_COURSES
  let (assignments, m1) := getAllAssignmentsOptimized limitedCards wA m
  let (announcements, m2) := getAllAnnouncementsOptimized limitedCards wAnn m1
  let (files, m3) := getAllFilesOptimized limitedCards wF m2
  ({ courses := limitedCards
     assignments := assignments.take 50
     announcements := announcements.take 30
     files := files.take 100
     coursesProcessed := limitedCards.length
     assignmentsCount := assignments.length
     announcementsCount := announcements.length
     filesCount := files.length }, m3)

/-!
### ConversationContext: `ConversationService.addMessage`
(src/services/conversation.js lines 183-223)

```js
static async addMessage(conversationId, content, role, metadata = {}) {
    if (!this.isAvailable()) {
        return { id: `temp-${Date.now()}`, conversation_id: conversationId, content, role, metadata };
    }
    if (conversationId.startsWith('temp-')) {
        return { id: `temp-${Date.now()}`, conversation_id: conversationId, content, role, metadata };
    }
    try {
        insert into messages; updateConversation(conversationId, {});
        return message;
    } catch (error) {
        return { id: `temp-${Date.now()}`, conversation_id: conversationId, content, role, metadata };
    }
}
```
-/

/-- A row of the `messages` table (metadata kept as an opaque string). -/
structure MessageRow where
  id : String
  conversation_id : String
  content : String
  role : String
  metadata : String
deriving DecidableEq, Repr

/-- A row of the `conversations` table (only the fields `addMessage`
touches). -/
structure ConvRow where
  id : String
  updated_at : Nat
deriving DecidableEq, Repr

/-- The durable store behind Supabase: conversations and messages. -/
structure ConvStore where
  conversations : List ConvRow
  messages : List MessageRow
deriving DecidableEq, Repr

/-- The synthetic message object returned on every no-write path:
`id` is `temp-<Date.now()>` and the other fields echo the arguments. -/
def syntheticMessage (conversationId content role metadata : String)
    (now : Nat) : MessageRow :=
  ⟨"temp-" ++ toString now, conversationId, content, role, metadata⟩

/-- Model of `ConversationService.addMessage`.  `available` is
`isAvailable()` (the Supabase client was configured), `insertFails`
makes the insert raise the error that the `catch` absorbs, `now` is
`Date.now()`.  Returns the message object handed back to the caller and
the store after the call. -/
def addMessage (available : Bool) (insertFails : Bool) (db : ConvStore)
    (conversationId content role metadata : String) (now : Nat) :
    MessageRow × ConvStore :=
  if !available then
    (syntheticMessage conversationId content role metadata now, db)
  else if conversationId.startsWith "temp-" then
    (syntheticMessage conversationId content role metadata now, db)
  else if insertFails then
    -- the thrown insert error is caught; nothing was written
    (syntheticMessage conversationId content role metadata now, db)
  else
    let message : MessageRow :=
      ⟨"msg-" ++ toString now, conversationId, content, role, metadata⟩
    (message,
      { conversations :=
          db.conversations.map (fun c =>
            if c.id = conversationId then { c with updated_at := now } else c)
        messages := db.messages ++ [message] })

/-!
## Shared lemmas
-/

/-- When the gate returns at all, it returns `Promise.allSettled` of the
per-item promises: one outcome per item, in input order. -/
theorem processWithConcurrency_ok_eq {α β : Type} {items : List α}
    {w : α → Outcome β} {limit : Nat} {out : List (Outcome β)}
    (h : processWithConcurrency items w limit = .ok out) : out = items.map w := by
  unfold processWithConcurrency at h
  cases hg : gateLoop w limit items [] [] with
  | error r => rw [hg] at h; cases h
  | ok u => rw [hg] at h; cases h; rfl

/-- If every worker of the remaining items fulfills and every promise of
the current wave is fulfilled, the gate loop never throws. -/
theorem gateLoop_ok_of_fulfilled {α β : Type} (w : α → Outcome β) (limit : Nat) :
    ∀ (items : List α) (pending : List (Outcome β)),
      (∀ x ∈ items, (w x).isFulfilled) →
      (∀ o ∈ pending, o.isFulfilled) →
      gateLoop w limit items [] pending = .ok () := by
  intro items
  induction items with
  | nil => intro pending _ _; rfl
  | cons x rest ih =>
    intro pending hitems hpending
    have hx : (w x).isFulfilled := hitems x (List.mem_cons_self x rest)
    have hrest : ∀ y ∈ rest, (w y).isFulfilled := fun y hy =>
      hitems y (List.mem_cons_of_mem x hy)
    have hpending' : ∀ o ∈ pending ++ [w x], o.isFulfilled := by
      intro o ho
      rcases List.mem_append.mp ho with h | h
      · exact hpending o h
      · rcases List.mem_singleton.mp h with rfl; exact hx
    show gateLoop w limit (x :: rest) [] pending = .ok ()
    unfold gateLoop
    simp only [List.length_nil, Nat.zero_add]
    split
    · -- race: no leftovers, head of the wave is fulfilled
      cases hw : pending ++ [w x] with
      | nil => simp at hw
      | cons o tl =>
        have ho : o.isFulfilled := by
          apply hpending'; rw [hw]; exact List.mem_cons_self o tl
        cases o with
        | fulfilled v =>
          simp only [hw]
          have hnone : (pending ++ [w x]).filterMap Outcome.reason? = [] := by
            rw [List.filterMap_eq_nil_iff]
            intro o ho'
            cases o with
            | fulfilled _ => rfl
            | rejected r => exact absurd (hpending' _ ho') (by simp [Outcome.isFulfilled])
          rw [hw] at hnone
          rw [hnone]
          exact ih [] hrest (by intro o ho; cases ho)
        | rejected r => exact absurd ho (by simp [Outcome.isFulfilled])
    · exact ih (pending ++ [w x]) hrest hpending'

/-- If the wave stays strictly below the limit, the race is never awaited
and the gate loop never throws, whatever the workers do. -/
theorem gateLoop_ok_of_small {α β : Type} (w : α → Outcome β) (limit : Nat) :
    ∀ (items : List α) (pending : List (Outcome β)),
      pending.length + items.length < limit →
      gateLoop w limit items [] pending = .ok () := by
  intro items
  induction items with
  | nil => intro pending _; rfl
  | cons x rest ih =>
    intro pending hlt
    show gateLoop w limit (x :: rest) [] pending = .ok ()
    unfold gateLoop
    simp only [List.length_nil, Nat.zero_add]
    split
    · next hge =>
      exfalso
      rw [List.length_append, List.length_singleton] at hge
      simp only [List.length_cons] at hlt
      omega
    · exact ih (pending ++ [w x]) (by simp at hlt ⊢; omega)

/-!
## Claim C4 — ConcurrencyGate output arity and order
-/

/-- C4 (counterexample): the claim "for every input sequence, every worker
and every limit, processWithConcurrency returns exactly N outcomes" is
false: for the single-item input `[0]` with a rejecting worker and
`limit = 1`, the rejection escapes through `await Promise.race` and the
gate throws instead of returning a 1-element outcome list. -/
theorem C4_gate_counterexample :
    processWithConcurrency [0] (fun _ => (Outcome.rejected "boom" : Outcome Nat)) 1
      = .error "boom" := rfl

/-- C4 (amended): whenever `processWithConcurrency` returns at all, it
returns exactly one outcome per input item, the `i`-th outcome being the
settled result of the worker on the `i`-th item (input order preserved);
and it does return — with `.ok` — for every worker that never rejects,
whatever the limit.  (As stated over *all* workers the claim fails,
because a worker rejection can escape the gate through
`await Promise.race`; see the counterexample.) -/
theorem C4_gate_order_preserved {α β : Type} (items : List α)
    (w : α → Outcome β) (limit : Nat) :
    (∀ out, processWithConcurrency items w limit = .ok out → out = items.map w) ∧
    ((∀ x ∈ items, (w x).isFulfilled) →
      processWithConcurrency items w limit = .ok (items.map w)) := by
  constructor
  · intro out h
    exact processWithConcurrency_ok_eq h
  · intro hful
    unfold processWithConcurrency
    rw [gateLoop_ok_of_fulfilled w limit items [] hful (by intro o ho; cases ho)]

/-- C4 (witness): the amended theorem at the concrete input `[1, 2]`, an
always-fulfilling worker and limit 1: the gate returns both outcomes in
input order. -/
theorem C4_gate_order_preserved_witness :
    processWithConcurrency [1, 2] (fun n => (Outcome.fulfilled n : Outcome Nat)) 1
      = .ok [Outcome.fulfilled 1, Outcome.fulfilled 2] := by
  have h := (C4_gate_order_preserved [1, 2]
    (fun n => (Outcome.fulfilled n : Outcome Nat)) 1).2 (by decide)
  simpa using h

/-!
## Claim C5 — ConcurrencyGate worker-rejection isolation
-/

/-- C5 (counterexample): the claim "a worker rejection is never propagated
out of the gate as an exception" is false: with two items, a rejecting
worker and `limit = 2`, pushing the second item triggers
`await Promise.race(executing)`, the first (rejected) promise wins the
race, and the rejection is thrown out of `processWithConcurrency`. -/
theorem C5_gate_counterexample :
    processWithConcurrency [0, 1] (fun _ => (Outcome.rejected "e" : Outcome Nat)) 2
      = .error "e" := rfl

/-- C5 (amended): worker rejections are captured as `Rejected` outcomes
and never escape the gate *provided the input is strictly shorter than
the limit*, so that `executing.length >= maxConcurrency` never holds and
`Promise.race` is never awaited; all workers are then invoked and the
full outcome list is returned in input order.  (Without that proviso a
rejection can escape through the race; see the counterexample.) -/
theorem C5_gate_rejection_captured {α β : Type} (items : List α)
    (w : α → Outcome β) (limit : Nat) (h : items.length < limit) :
    processWithConcurrency items w limit = .ok (items.map w) := by
  unfold processWithConcurrency
  rw [gateLoop_ok_of_small w limit items [] (by simpa using h)]

/-- C5 (witness): the amended theorem at the concrete input `[0, 1]`, a
worker that always rejects and limit 3: both rejections are captured as
`Rejected` outcomes and the gate completes normally. -/
theorem C5_gate_rejection_captured_witness :
    processWithConcurrency [0, 1] (fun _ => (Outcome.rejected "e" : Outcome Nat)) 3
      = .ok [Outcome.rejected "e", Outcome.rejected "e"] := by
  have h := C5_gate_rejection_captured [0, 1]
    (fun _ => (Outcome.rejected "e" : Outcome Nat)) 3 (by decide)
  simpa using h

/-!
## Claims C2 and C3 — BatchOrchestrator metrics and outcome arity
-/

/-- Items of one batch that the `catch` branch counts: the whole batch
when the orchestration of the batch throws, none otherwise. -/
def batchThrown {α β : Type} (w : α → Outcome β) (batch : List α) : Nat :=
  match processWithConcurrency batch w MAX_CONCURRENT_REQUESTS with
  | .ok _ => 0
  | .error _ => batch.length

/-- Outcomes contributed by one batch to the returned list. -/
def batchOkLen {α β : Type} (w : α → Outcome β) (batch : List α) : Nat :=
  match processWithConcurrency batch w MAX_CONCURRENT_REQUESTS with
  | .ok rs => rs.length
  | .error _ => 0

/-- Total number of items that sat in batches whose orchestration threw,
over one `processBatchWithRetry` call. -/
def thrownBatchSize {α β : Type} (items : List α) (w : α → Outcome β)
    (batchSize : Nat) : Nat :=
  ((chunk batchSize items).map (batchThrown w)).sum

/-- Fulfilled and rejected outcomes partition a settled list. -/
theorem filter_fulfilled_rejected_length {β : Type} :
    ∀ (l : List (Outcome β)),
      (l.filter Outcome.isFulfilled).length + (l.filter Outcome.isRejected).length
        = l.length := by
  intro l
  induction l with
  | nil => rfl
  | cons o rest ih =>
    cases o with
    | fulfilled v =>
      simp [List.filter_cons, Outcome.isFulfilled, Outcome.isRejected]
      omega
    | rejected r =>
      simp [List.filter_cons, Outcome.isFulfilled, Outcome.isRejected]
      omega

/-- Main accounting lemma for the batch loop: over any chunk list the
final metrics satisfy `Δ(success + failed) = Δtotal + thrown items`, each
counter only grows, and the result list grows by exactly the outcomes of
the non-throwing batches. -/
theorem batch_foldl_spec {α β : Type} (w : α → Outcome β) :
    ∀ (chunks : List (List α)) (acc : List (Outcome β)) (m : Metrics),
      (chunks.foldl (batchStep w) (acc, m)).2.successfulRequests
          + (chunks.foldl (batchStep w) (acc, m)).2.failedRequests
          + m.totalRequests
        = (chunks.foldl (batchStep w) (acc, m)).2.totalRequests
          + m.successfulRequests + m.failedRequests
          + (chunks.map (batchThrown w)).sum
      ∧ m.totalRequests ≤ (chunks.foldl (batchStep w) (acc, m)).2.totalRequests
      ∧ m.successfulRequests
          ≤ (chunks.foldl (batchStep w) (acc, m)).2.successfulRequests
      ∧ m.failedRequests ≤ (chunks.foldl (batchStep w) (acc, m)).2.failedRequests
      ∧ (chunks.foldl (batchStep w) (acc, m)).1.length
          = acc.length + (chunks.map (batchOkLen w)).sum := by
  intro chunks
  induction chunks with
  | nil =>
    intro acc m
    simp only [List.foldl_nil, List.map_nil, List.sum_nil]
    exact ⟨by omega, Nat.le_refl _, Nat.le_refl _, Nat.le_refl _, by omega⟩
  | cons b rest ih =>
    intro acc m
    simp only [List.foldl_cons, List.map_cons, List.sum_cons]
    cases h : processWithConcurrency b w MAX_CONCURRENT_REQUESTS with
    | ok rs =>
      have hstep : batchStep w (acc, m) b
          = (acc ++ rs,
             { totalRequests := m.totalRequests + b.length
               successfulRequests :=
                 m.successfulRequests + (rs.filter Outcome.isFulfilled).length
               failedRequests :=
                 m.failedRequests + (rs.filter Outcome.isRejected).length }) := by
        simp [batchStep, h]
      have hlen : rs.length = b.length := by
        rw [processWithConcurrency_ok_eq h]; simp
      have hpart := filter_fulfilled_rejected_length rs
      have hthrown : batchThrown w b = 0 := by simp [batchThrown, h]
      have hok : batchOkLen w b = rs.length := by simp [batchOkLen, h]
      rw [hstep]
      obtain ⟨he, ht, hs, hf, hr⟩ := ih (acc ++ rs)
        { totalRequests := m.totalRequests + b.length
          successfulRequests :=
            m.successfulRequests + (rs.filter Outcome.isFulfilled).length
          failedRequests :=
            m.failedRequests + (rs.filter Outcome.isRejected).length }
      refine ⟨?_, ?_, ?_, ?_, ?_⟩
      · rw [hthrown]; simp only at he ⊢; omega
      · simp only at ht ⊢; omega
      · simp only at hs ⊢; omega
      · simp only at hf ⊢; omega
      · rw [hok, hr]; simp; omega
    | error r =>
      have hstep : batchStep w (acc, m) b
          = (acc, { m with failedRequests := m.failedRequests + b.length }) := by
        simp [batchStep, h]
      have hthrown : batchThrown w b = b.length := by simp [batchThrown, h]
      have hok : batchOkLen w b = 0 := by simp [batchOkLen, h]
      rw [hstep]
      obtain ⟨he, ht, hs, hf, hr⟩ := ih acc
        { m with failedRequests := m.failedRequests + b.length }
      refine ⟨?_, ?_, ?_, ?_, ?_⟩
      · rw [hthrown]; simp only at he ⊢; omega
      · simp only at ht ⊢; omega
      · simp only at hs ⊢; omega
      · simp only at hf ⊢; omega
      · rw [hok, hr]; omega

/-- Chunk lengths sum to the input length, for sufficient fuel. -/
theorem chunkGo_length_sum {α : Type} :
    ∀ (fuel n : Nat) (xs : List α), xs.length ≤ fuel →
      ((chunkGo (n + 1) fuel xs).map List.length).sum = xs.length := by
  intro fuel
  induction fuel with
  | zero =>
    intro n xs h
    cases xs with
    | nil => rfl
    | cons x rest => simp at h
  | succ fuel ih =>
    intro n xs h
    cases xs with
    | nil => rfl
    | cons x rest =>
      simp only [chunkGo, List.map_cons, List.sum_cons]
      rw [ih n (rest.drop n) (by simp [List.length_drop]; simp at h; omega)]
      simp [List.length_take, List.length_drop]
      omega

/-- Chunking is a partition: for a positive batch size the chunk lengths
sum to the input length. -/
theorem chunk_length_sum {α : Type} :
    ∀ (batchSize : Nat) (xs : List α), 0 < batchSize →
      ((chunk batchSize xs).map List.length).sum = xs.length := by
  intro batchSize xs hbs
  cases batchSize with
  | zero => cases hbs
  | succ n => exact chunkGo_length_sum xs.length n xs (Nat.le_refl _)

/-- One `processBatchWithRetry` invocation: its arguments. -/
structure BatchRun (α β : Type) where
  items : List α
  worker : α → Outcome β
  batchSize : Nat

/-- The metrics after one `processBatchWithRetry` run. -/
def applyRun {α β : Type} (m : Metrics) (r : BatchRun α β) : Metrics :=
  (processBatchWithRetry r.items r.worker r.batchSize m).2

/-- The metrics after a sequence of `processBatchWithRetry` runs. -/
def applyRuns {α β : Type} (runs : List (BatchRun α β)) (m : Metrics) : Metrics :=
  runs.foldl applyRun m

/-- Items sitting in orchestration-level-throwing batches, over a
sequence of runs. -/
def runsThrownSize {α β : Type} (runs : List (BatchRun α β)) : Nat :=
  (runs.map (fun r => thrownBatchSize r.items r.worker r.batchSize)).sum

/-- Single-run metrics accounting, specialised from `batch_foldl_spec`. -/
theorem processBatchWithRetry_metrics {α β : Type} (items : List α)
    (w : α → Outcome β) (batchSize : Nat) (m : Metrics) :
    (processBatchWithRetry items w batchSize m).2.successfulRequests
        + (processBatchWithRetry items w batchSize m).2.failedRequests
        + m.totalRequests
      = (processBatchWithRetry items w batchSize m).2.totalRequests
        + m.successfulRequests + m.failedRequests
        + thrownBatchSize items w batchSize
    ∧ m.totalRequests ≤ (processBatchWithRetry items w batchSize m).2.totalRequests
    ∧ m.successfulRequests
        ≤ (processBatchWithRetry items w batchSize m).2.successfulRequests
    ∧ m.failedRequests
        ≤ (processBatchWithRetry items w batchSize m).2.failedRequests := by
  have h := batch_foldl_spec w (chunk batchSize items) [] m
  exact ⟨h.1, h.2.1, h.2.2.1, h.2.2.2.1⟩

/-- Sequence version of the accounting identity. -/
theorem applyRuns_eq {α β : Type} :
    ∀ (runs : List (BatchRun α β)) (m : Metrics),
      (applyRuns runs m).successfulRequests + (applyRuns runs m).failedRequests
          + m.totalRequests
        = (applyRuns runs m).totalRequests + m.successfulRequests
          + m.failedRequests + runsThrownSize runs := by
  intro runs
  induction runs with
  | nil =>
    intro m
    simp only [applyRuns, List.foldl_nil, runsThrownSize, List.map_nil, List.sum_nil]
    omega
  | cons r rest ih =>
    intro m
    have h1 := (processBatchWithRetry_metrics r.items r.worker r.batchSize m).1
    have h2 := ih (applyRun m r)
    simp only [applyRuns, List.foldl_cons] at h2 ⊢
    simp only [runsThrownSize, List.map_cons, List.sum_cons] at h2 ⊢
    simp only [applyRun] at h1 h2 ⊢
    omega

/-- C2 (counterexample): the invariant
`successfulRequests + failedRequests == totalRequests` fails after a run
in which the orchestration of a batch throws.  With 12 items, a rejecting
worker and `batchSize = 12`, the single batch reaches the concurrency
limit, the rejection escapes `processWithConcurrency`, and the `catch`
branch adds 12 to `failedRequests` without touching `totalRequests`:
the metrics end at `{total := 0, success := 0, failed := 12}`. -/
theorem C2_metrics_counterexample :
    (processBatchWithRetry (List.range 12)
        (fun _ => (Outcome.rejected "boom" : Outcome Nat)) 12
        resetMetrics).2.successfulRequests
      + (processBatchWithRetry (List.range 12)
          (fun _ => (Outcome.rejected "boom" : Outcome Nat)) 12
          resetMetrics).2.failedRequests
      ≠ (processBatchWithRetry (List.range 12)
          (fun _ => (Outcome.rejected "boom" : Outcome Nat)) 12
          resetMetrics).2.totalRequests := by
  decide

/-- C2 (amended): after any sequence of `processBatchWithRetry` runs
since the last reset, the counters satisfy
`successfulRequests + failedRequests = totalRequests + T`, where `T` is
the total size of the batches whose orchestration threw (the `catch`
branch bumps `failedRequests` by the batch length without bumping
`totalRequests`); in particular the claimed equality holds exactly for
run sequences with no orchestration-level exception.  Each run only grows
all three counters, and the explicit reset performed at logout sets them
back to zero. -/
theorem C2_metrics_amended {α β : Type} (runs : List (BatchRun α β)) :
    (applyRuns runs resetMetrics).successfulRequests
        + (applyRuns runs resetMetrics).failedRequests
      = (applyRuns runs resetMetrics).totalRequests + runsThrownSize runs
    ∧ (∀ (r : BatchRun α β) (m : Metrics),
        m.totalRequests ≤ (applyRun m r).totalRequests
        ∧ m.successfulRequests ≤ (applyRun m r).successfulRequests
        ∧ m.failedRequests ≤ (applyRun m r).failedRequests)
    ∧ resetMetrics = ⟨0, 0, 0⟩ := by
  refine ⟨?_, ?_, rfl⟩
  · have h := applyRuns_eq runs resetMetrics
    simp only [resetMetrics] at h ⊢
    omega
  · intro r m
    have h := processBatchWithRetry_metrics r.items r.worker r.batchSize m
    exact ⟨h.2.1, h.2.2.1, h.2.2.2⟩

/-- C3 (counterexample): `processBatchWithRetry` does not always return
one outcome per input item.  With 12 items, a rejecting worker and
`batchSize = 12`, the batch-level exception is caught but the batch's
items are only counted in `failedRequests`: the returned outcome list is
empty while the input has 12 items. -/
theorem C3_batch_counterexample :
    (processBatchWithRetry (List.range 12)
        (fun _ => (Outcome.rejected "boom" : Outcome Nat)) 12
        resetMetrics).1.length ≠ (List.range 12).length := by
  decide

/-- C3 (amended): `processBatchWithRetry` never propagates a batch-level
exception (it is a total function returning an outcome list), but a batch
whose orchestration throws contributes *no* outcomes to the returned
list: for every positive batch size the returned list has exactly
`items.length - T` outcomes, where `T` is the total size of the throwing
batches — so the outcome count equals the input count exactly when no
batch-level exception occurs. -/
theorem C3_batch_outcome_arity {α β : Type} (items : List α)
    (w : α → Outcome β) (batchSize : Nat) (m : Metrics) (hbs : 0 < batchSize) :
    (processBatchWithRetry items w batchSize m).1.length
      + thrownBatchSize items w batchSize = items.length := by
  have h := (batch_foldl_spec w (chunk batchSize items) [] m).2.2.2.2
  have hsum := chunk_length_sum batchSize items hbs
  have hpart : ∀ b : List α, batchOkLen w b + batchThrown w b = b.length := by
    intro b
    cases hb : processWithConcurrency b w MAX_CONCURRENT_REQUESTS with
    | ok rs =>
      have : rs = b.map w := processWithConcurrency_ok_eq hb
      simp [batchOkLen, batchThrown, hb, this]
    | error r => simp [batchOkLen, batchThrown, hb]
  have hsplit :
      ((chunk batchSize items).map (batchOkLen w)).sum
        + ((chunk batchSize items).map (batchThrown w)).sum
        = ((chunk batchSize items).map List.length).sum := by
    induction chunk batchSize items with
    | nil => rfl
    | cons b rest ih =>
      simp only [List.map_cons, List.sum_cons]
      have := hpart b
      omega
  simp only [processBatchWithRetry, thrownBatchSize]
  simp only [List.length_nil] at h
  omega

/-- C3 (witness): the amended theorem at a concrete input: three items,
an always-fulfilling worker, batch size 2 — three outcomes come back and
no batch throws. -/
theorem C3_batch_outcome_arity_witness :
    0 < 2
    ∧ (processBatchWithRetry [1, 2, 3]
          (fun n => (Outcome.fulfilled n : Outcome Nat)) 2 resetMetrics).1.length
        + thrownBatchSize [1, 2, 3]
            (fun n => (Outcome.fulfilled n : Outcome Nat)) 2
      = [1, 2, 3].length :=
  ⟨by decide,
   C3_batch_outcome_arity [1, 2, 3]
     (fun n => (Outcome.fulfilled n : Outcome Nat)) 2 resetMetrics (by decide)⟩

/-!
## Claim C1 — retry policy of the CanvasClient
-/

/-- C1 (code bug): the retry predicate classifies 429 (and network
failures, and 5xx) as retryable — matching the spec — yet against an
upstream that answers 429, 429, 200 the client makes exactly one physical
attempt, sleeps no backoff delay, and surfaces `CanvasAPIError(429)`
instead of succeeding.  The guard `config.__retryCount < this.maxRetries`
runs while `__retryCount` is still `undefined` (it is initialised only
inside the guarded block), and in JavaScript `undefined < 3` is `false`,
so no request is ever retried. -/
theorem C1_retry_never_happens :
    shouldRetry (.status 429) = true
    ∧ shouldRetry .network = true
    ∧ shouldRetry (.status 500) = true
    ∧ shouldRetry (.status 404) = false
    ∧ jsLtUndef none 3 = false
    ∧ performRequest upstream429twice = ⟨.canvasError 429, 1, []⟩ :=
  ⟨rfl, rfl, rfl, rfl, rfl, rfl⟩

/-!
## Claim C6 — transparent pagination
-/

/-- The pagination loop follows a linked chain to its end: starting from
a parsed next-link, it appends every page body in chain order and issues
one continuation request per page, given enough fuel. -/
theorem paginateLoop_follows {α : Type} (upstream : String → PageResp α) :
    ∀ {cur : Option String} {ds : List (List α)} {n : Nat},
      Follows upstream cur ds n →
      ∀ (fuel : Nat), n ≤ fuel → ∀ (acc : List α) (reqs : Nat),
        paginateLoop upstream fuel cur acc reqs = .ok (acc ++ ds.flatten, reqs + n) := by
  intro cur ds n hfollow
  induction hfollow with
  | nil =>
    intro fuel _ acc reqs
    cases fuel <;> simp [paginateLoop]
  | cons url h ds n hlink hrest ih =>
    intro fuel hfuel acc reqs
    cases fuel with
    | zero => omega
    | succ fuel =>
      show paginateLoop upstream (fuel + 1) (some url) acc reqs = _
      simp only [paginateLoop, hlink]
      rw [ih fuel (Nat.le_of_succ_le_succ hfuel) (acc ++ (upstream url).data) (reqs + 1)]
      have harith : reqs + 1 + n = reqs + (n + 1) := by omega
      simp only [List.flatten_cons, List.append_assoc, harith]

/-- C6 (confirmed): for every initial (non-continuation) request whose
response body is a list carrying a (truthy) `Link` header from which a
`rel="next"` chain of `n` further pages follows, the interceptor returns
the concatenation of all pages in page order and issues exactly `n`
follow-up continuation requests; and every request marked
`_isPaginationRequest` is returned untouched, issuing no further
requests, so continuations never recursively paginate.  The claimed
3-page scenario is the witness: `n = 2` continuation requests. -/
theorem C6_pagination_follows_chain {α : Type} (upstream : String → PageResp α)
    (fuel : Nat) (resp : PageResp α) (h : String) (ds : List (List α)) (n : Nat)
    (hlink : resp.link = some h) (hne : h ≠ "")
    (hchain : Follows upstream (getNextPageUrl h) ds n) (hfuel : n ≤ fuel) :
    handleResponse upstream fuel resp false = .ok (resp.data ++ ds.flatten, n)
    ∧ ∀ (q : PageResp α), handleResponse upstream fuel q true = .ok (q.data, 0) := by
  constructor
  · unfold handleResponse
    rw [hlink]
    simp only [if_neg hne, Bool.false_eq_true, if_false]
    have := paginateLoop_follows upstream hchain fuel hfuel resp.data 0
    rw [this]
    simp
  · intro q
    rfl

/-- The 3-page mock upstream of the claim: `u2` and `u3` are the
continuation URLs; the last page's `Link` header has no `rel="next"`. -/
def upstream3pages : String → PageResp Nat := fun u =>
  if u = "u2" then ⟨[3, 4], some "<u3>; rel=\"next\""⟩
  else if u = "u3" then ⟨[5, 6], some "<u3>; rel=\"last\""⟩
  else ⟨[], none⟩

/-- C6 (witness): the theorem applied to the concrete 3-page linked list:
one logical call returns all three pages concatenated in page order with
exactly 2 follow-up continuation requests, and a continuation request is
returned untouched. -/
theorem C6_pagination_follows_chain_witness :
    handleResponse upstream3pages 10 ⟨[1, 2], some "<u2>; rel=\"next\""⟩ false
      = .ok ([1, 2, 3, 4, 5, 6], 2)
    ∧ handleResponse upstream3pages 10 ⟨[3, 4], some "<u3>; rel=\"next\""⟩ true
      = .ok ([3, 4], 0) := by
  have hchain : Follows upstream3pages (getNextPageUrl "<u2>; rel=\"next\"")
      [[3, 4], [5, 6]] 2 := by
    have h2 : getNextPageUrl "<u2>; rel=\"next\"" = some "u2" := by decide
    have h3 : getNextPageUrl "<u3>; rel=\"next\"" = some "u3" := by decide
    have hlast : getNextPageUrl "<u3>; rel=\"last\"" = none := by decide
    rw [h2]
    have step2 : Follows upstream3pages (some "u3") [[5, 6]] 1 := by
      have h := @Follows.cons Nat upstream3pages "u3" "<u3>; rel=\"last\""
        [] 0 (by decide) (by rw [hlast]; exact Follows.nil)
      simpa [upstream3pages] using h
    have step1 : Follows upstream3pages (some "u2") [[3, 4], [5, 6]] 2 := by
      have h := @Follows.cons Nat upstream3pages "u2" "<u3>; rel=\"next\""
        [[5, 6]] 1 (by decide) (by rw [h3]; exact step2)
      simpa [upstream3pages] using h
    exact step1
  have h := C6_pagination_follows_chain upstream3pages 10
    ⟨[1, 2], some "<u2>; rel=\"next\""⟩ "<u2>; rel=\"next\"" [[3, 4], [5, 6]] 2
    rfl (by decide) hchain (by decide)
  exact ⟨by simpa using h.1, h.2 _⟩

/-!
## Claim C7 — ingestion failure path
-/

/-- C7 (confirmed): whenever the transcription comes back empty or below
the minimum length (10), the recording-processing handler records status
`failed` with the non-empty human-readable reason
`Processing failed: Transcription too short or empty` in the summary
field, unlinks the temporary upload blob exactly once (and its
re-extension copy exactly once, thanks to the
`tempFileWithExt !== audioFile.path` guard), never deletes the durable
storage copy on this path, and answers 500. -/
theorem C7_short_transcription_fails (audioPath ext transcription summary : String)
    (h : transcription.length < 10) :
    RecEffect.updateRec "failed" ("Processing failed: " ++ transcriptionTooShortMsg)
        ∈ (processRecording audioPath ext transcription summary).1
    ∧ ("Processing failed: " ++ transcriptionTooShortMsg) ≠ ""
    ∧ (processRecording audioPath ext transcription summary).1.count
        (RecEffect.unlink audioPath) = 1
    ∧ RecEffect.storageDelete ∉ (processRecording audioPath ext transcription summary).1
    ∧ (processRecording audioPath ext transcription summary).2 = 500 := by
  by_cases hc : audioPath ++ ext = audioPath
  · refine ⟨?_, by decide, ?_, ?_, ?_⟩ <;>
      simp [processRecording, if_pos h, hc, List.count_cons]
  · refine ⟨?_, by decide, ?_, ?_, ?_⟩ <;>
      simp [processRecording, if_pos h, hc, List.count_cons]

/-- C7 (witness): the theorem at the concrete empty transcription: the
job is marked failed with the non-empty reason, the temp blob
`uploads/x` is unlinked exactly once, storage is untouched, 500. -/
theorem C7_short_transcription_fails_witness :
    ("" : String).length < 10
    ∧ RecEffect.updateRec "failed" ("Processing failed: " ++ transcriptionTooShortMsg)
        ∈ (processRecording "uploads/x" ".wav" "" "sum").1
    ∧ ("Processing failed: " ++ transcriptionTooShortMsg) ≠ ""
    ∧ (processRecording "uploads/x" ".wav" "" "sum").1.count
        (RecEffect.unlink "uploads/x") = 1
    ∧ RecEffect.storageDelete ∉ (processRecording "uploads/x" ".wav" "" "sum").1
    ∧ (processRecording "uploads/x" ".wav" "" "sum").2 = 500 :=
  ⟨by decide, C7_short_transcription_fails "uploads/x" ".wav" "" "sum" (by decide)⟩

/-!
## Claim C8 — totality and well-formedness of the fallback query analyzer
-/

/-- C8 (confirmed): `fallbackQueryProcessing` is total (it is a Lean
function, every JavaScript operation it performs being total on strings
— it cannot throw), and for every input string (including the empty
string) and every known-course list it returns a well-formed
`SearchIntent`: `searchType` in its allowed category set, an allowed
`intent` value, `keywords` and `specificItems` lists present,
`timeFilter`/`priority` among the allowed optional values, and
`courseFilter` either null or the code of one of the known courses. -/
theorem C8_fallback_total_wellformed (q : String) (courses : List Course) :
    (fallbackQueryProcessing q courses).searchType
        ∈ ["assignments", "announcements", "files", "courses", "general"]
    ∧ (fallbackQueryProcessing q courses).intent
        ∈ ["find_assignments", "get_course_info", "general_question"]
    ∧ (fallbackQueryProcessing q courses).timeFilter
        ∈ [none, some "this_week", some "next_week"]
    ∧ (fallbackQueryProcessing q courses).priority ∈ [none, some "due_soon"]
    ∧ (fallbackQueryProcessing q courses).keywords
        = (q.splitOn " ").filter (fun word => word.length > 2)
    ∧ (fallbackQueryProcessing q courses).specificItems = []
    ∧ ((fallbackQueryProcessing q courses).courseFilter = none
        ∨ ∃ c ∈ courses,
            (fallbackQueryProcessing q courses).courseFilter = some c.course_code) := by
  refine ⟨?_, ?_, ?_, ?_, rfl, rfl, ?_⟩
  · dsimp only [fallbackQueryProcessing]
    split_ifs <;> simp
  · dsimp only [fallbackQueryProcessing]
    split_ifs <;> simp
  · dsimp only [fallbackQueryProcessing]
    split_ifs <;> simp
  · dsimp only [fallbackQueryProcessing]
    split_ifs <;> simp
  · dsimp only [fallbackQueryProcessing]
    cases hf : courses.find? (fun course =>
        jsIncludes q course.course_code || jsIncludes q course.name) with
    | none => left; simp [hf]
    | some c =>
      right
      exact ⟨c, List.mem_of_find?_eq_some hf, by simp [hf]⟩

/-!
## Claim C9 — dashboard aggregation on an empty card list
-/

/-- C9 (confirmed): with zero fetched dashboard cards the aggregation
entry point returns all three categories as empty sequences and reports
`coursesProcessed == 0` (and zero per-category counts), leaving the
performance metrics untouched — whatever the three category workers
would do. -/
theorem C9_dashboard_empty {γ : Type} (wA : γ → Outcome (List AItem))
    (wAnn : γ → Outcome (List AnnItem)) (wF : γ → Outcome (List FItem))
    (m : Metrics) :
    dashboardHandler ([] : List γ) wA wAnn wF m
      = ({ courses := [], assignments := [], announcements := [], files := [],
           coursesProcessed := 0, assignmentsCount := 0, announcementsCount := 0,
           filesCount := 0 }, m) := by
  simp [dashboardHandler, getAllAssignmentsOptimized, getAllAnnouncementsOptimized,
    getAllFilesOptimized, processBatchWithRetry, chunk, chunkGo, fulfilledValues,
    MAX_COURSES, COURSE_BATCH_SIZE]

/-!
## Claim C10 — addMessage is write-free for temporary or unconfigured stores
-/

/-- C10 (confirmed): whenever the durable store is not configured
(`isAvailable()` false) or the conversation id begins with `temp-`,
`ConversationService.addMessage` performs no write: the store is returned
unchanged and the caller receives the synthetic message object echoing
the conversation id, content, role and metadata (with a `temp-` id); the
function is total, so it never throws. -/
theorem C10_addMessage_no_write (available insertFails : Bool) (db : ConvStore)
    (conversationId content role metadata : String) (now : Nat)
    (h : available = false ∨ conversationId.startsWith "temp-" = true) :
    addMessage available insertFails db conversationId content role metadata now
      = (syntheticMessage conversationId content role metadata now, db) := by
  rcases h with h | h
  · subst h; rfl
  · cases available
    · rfl
    · simp [addMessage, h]

/-- C10 (witness): the theorem at a concrete call with the store not
configured: nothing is written and the synthetic message echoes the
arguments. -/
theorem C10_addMessage_no_write_witness :
    (false = false ∨ ("conv-9".startsWith "temp-") = true)
    ∧ addMessage false false ⟨[], []⟩ "conv-9" "hello" "user" "meta" 5
        = (syntheticMessage "conv-9" "hello" "user" "meta" 5, ⟨[], []⟩) :=
  ⟨Or.inl rfl,
   C10_addMessage_no_write false false ⟨[], []⟩ "conv-9" "hello" "user" "meta" 5
     (Or.inl rfl)⟩

end Claryfy
